import Mathlib

/-!
Shallow embedding of the `ddbcertstorage` repository: a certmagic storage
backend over DynamoDB (`item.go` and the storage file with `Storage`'s
Store/Load/Delete/Exists/List/Stat/Lock/Unlock methods).

The DynamoDB backend is the external collaborator; it is modelled per the
spec's backend contract (point get/put/delete-with-old-value, conditional
put failing with the current record, and a begins_with prefix scan) as a
list of attribute maps keyed by their "Key" attribute, behaving reliably
(no transport errors).  Go `time.Time` is modelled as a `Nat` of seconds
(0 = the zero time); RFC 3339 formatting is modelled as the decimal
representation of that `Nat` with `String.toNat?` as its partial inverse —
an injective textual encoding whose parse fails on malformed input, which
is exactly what the claims depend on.  `strconv.FormatInt`/`ParseInt` are
modelled the same way over `Int`.
-/

/-- DynamoDB attribute values used by the repository: string (S), binary
(B), number (N, stored as text) and boolean (BOOL) members. -/
inductive AttrVal where
  | S (s : String)
  | B (b : List Nat)
  | N (n : String)
  | BOOL (b : Bool)
  deriving DecidableEq

/-- A DynamoDB item: a map from attribute names to attribute values,
modelled as an association list (all access is by `List.lookup`). -/
abbrev AttrMap := List (String × AttrVal)

/-- The DynamoDB table: a set of items keyed by their "Key" attribute,
modelled as a list of attribute maps. -/
abbrev Table := List AttrMap

/-- The partition key of an item: its "Key" attribute, when that attribute
is present and of string type. -/
def itemKey (m : AttrMap) : Option String :=
  match m.lookup "Key" with
  | some (AttrVal.S s) => some s
  | _ => none

/-- Backend point get (GetItem with ConsistentRead): the item whose "Key"
attribute equals `key`, if any. -/
def getItem (tbl : Table) (key : String) : Option AttrMap :=
  tbl.find? (fun m => itemKey m == some key)

/-- Backend unconditional upsert (PutItem): replaces the item with the same
partition key, or appends the new item. -/
def putItemUncond (tbl : Table) (m : AttrMap) : Table :=
  if tbl.any (fun x => itemKey x == itemKey m) then
    tbl.map (fun x => if itemKey x == itemKey m then m else x)
  else
    tbl ++ [m]

/-- Backend delete (DeleteItem with ReturnValues=ALL_OLD): removes the item
at `key` and reports the previous item or its absence. -/
def deleteItem (tbl : Table) (key : String) : Option AttrMap × Table :=
  (getItem tbl key, tbl.filter (fun m => !(itemKey m == some key)))

/-- Splits a character list at every occurrence of `sep` (the accumulator
holds the current component, in order).  Structural recursion so that the
kernel can evaluate concrete instances. -/
def splitCharAux (sep : Char) : List Char → List Char → List (List Char)
  | [], acc => [acc.reverse]
  | c :: rest, acc =>
    if c == sep then acc.reverse :: splitCharAux sep rest []
    else splitCharAux sep rest (c :: acc)

/-- Model of Go `strings.Split(s, sep)` for a one-character separator (the
repository only ever splits on "/"). -/
def strSplitGo (s : String) (sep : Char) : List String :=
  (splitCharAux sep s.data []).map String.mk

/-- Model of Go `strings.Join(parts, sep)` for a one-character separator. -/
def strJoinGo (parts : List String) (sep : Char) : String :=
  String.mk (List.intercalate [sep] (parts.map String.data))

/-- Model of Go `strings.HasPrefix` (also of DynamoDB's `begins_with`
filter on string keys): character-wise prefix test. -/
def strHasPrefixGo (s pfx : String) : Bool :=
  pfx.data.isPrefixOf s.data

/-- Model of Go `strings.TrimPrefix`: drops `pfx` from the front of `s`
when it is a prefix, otherwise returns `s` unchanged. -/
def trimPrefixGo (s pfx : String) : String :=
  if strHasPrefixGo s pfx then String.mk (s.data.drop pfx.data.length) else s

/-- Model of Go `strings.Contains(s, sub)` for a one-character needle (the
repository only ever looks for "/"). -/
def strContainsGo (s : String) (c : Char) : Bool :=
  s.data.contains c

/-- Decimal digits of a natural number, via the fuel-structured core
routine (kernel-evaluable). -/
def natToDecimal (n : Nat) : List Char := Nat.toDigits 10 n

/-- Parses a non-empty all-digit character list as a natural number. -/
def decimalToNat (cs : List Char) : Option Nat :=
  if cs.isEmpty then none
  else if cs.all Char.isDigit then
    some (cs.foldl (fun n c => n * 10 + (c.toNat - Char.toNat (Char.ofNat 48))) 0)
  else none

/-- Model of Go `strconv.FormatInt(n, 10)`. -/
def formatIntGo (n : Int) : String :=
  if n < 0 then String.mk (Char.ofNat 45 :: natToDecimal n.natAbs)
  else String.mk (natToDecimal n.natAbs)

/-- Model of Go `strconv.ParseInt(s, 10, 64)`: the partial inverse of
`formatIntGo`; fails on malformed input (64-bit range irrelevant at the
sizes the claims use). -/
def parseIntGo (s : String) : Option Int :=
  match s.data with
  | c :: rest =>
    if c == Char.ofNat 45 then (decimalToNat rest).map (fun n => -(n : Int))
    else (decimalToNat s.data).map (fun n => (n : Int))
  | [] => none

/-- Model of Go `time.Time.Format(time.RFC3339)`: an injective textual
encoding of the modelled time (a `Nat` of seconds). -/
def timeFormatRFC3339 (t : Nat) : String := String.mk (natToDecimal t)

/-- Model of Go `time.Parse(time.RFC3339, s)`: the partial inverse of
`timeFormatRFC3339`; fails on strings that are not in the encoding. -/
def timeParseRFC3339 (s : String) : Option Nat := decimalToNat s.data

/-- Backend scan with `begins_with(#key, :key)` filter: all items whose
"Key" attribute starts with `pfx`, in table order (the backend's scan
order is unspecified; the model yields table order). -/
def scanBeginsWith (tbl : Table) (pfx : String) : List AttrMap :=
  tbl.filter (fun m =>
    match itemKey m with
    | some s => strHasPrefixGo s pfx
    | none => false)

/-- The logical record (`Item` in `item.go`): key, contents, modification
time, size and terminal flag.  Zero values mirror Go's: empty contents,
zero time, zero size, false flag. -/
structure Item where
  Key : String
  Contents : List Nat
  Modified : Nat
  Size : Int
  IsTerminal : Bool
  deriving DecidableEq

/-- Encoder of `item.go` (the Go method named `Item` on `Item`, renamed here
to avoid shadowing the type): emits "Key" always, "Contents"
only when non-empty, "Modified" only when the time is non-zero, "Size"
only when positive, "IsTerminal" only when true. -/
def Item.encode (i : Item) : AttrMap :=
  [("Key", AttrVal.S i.Key)]
    ++ (if i.Contents.length > 0 then [("Contents", AttrVal.B i.Contents)] else [])
    ++ (if i.Modified ≠ 0 then [("Modified", AttrVal.S (timeFormatRFC3339 i.Modified))] else [])
    ++ (if i.Size > 0 then [("Size", AttrVal.N (formatIntGo i.Size))] else [])
    ++ (if i.IsTerminal then [("IsTerminal", AttrVal.BOOL i.IsTerminal)] else [])

/-- Decoder `Item.Load()` from `item.go`: requires every one of the five
attributes to be present with its expected member type ("invalid attribute
value" otherwise), and requires the timestamp and the size to parse.  All
call sites invoke it on a zero `Item`, so it is modelled as building a
fresh `Item`. -/
def Item.Load (m : AttrMap) : Except String Item :=
  match m.lookup "Key" with
  | some (AttrVal.S k) =>
    match m.lookup "Contents" with
    | some (AttrVal.B c) =>
      match m.lookup "Modified" with
      | some (AttrVal.S ms) =>
        match timeParseRFC3339 ms with
        | some t =>
          match m.lookup "Size" with
          | some (AttrVal.N ns) =>
            match parseIntGo ns with
            | some sz =>
              match m.lookup "IsTerminal" with
              | some (AttrVal.BOOL b) => Except.ok ⟨k, c, t, sz, b⟩
              | _ => Except.error "invalid attribute value"
            | none => Except.error "parse int error"
          | _ => Except.error "invalid attribute value"
        | none => Except.error "parse time error"
      | _ => Except.error "invalid attribute value"
    | _ => Except.error "invalid attribute value"
  | _ => Except.error "invalid attribute value"

/-- Error taxonomy of the storage methods: the distinguishable not-found
condition (`fs.ErrNotExist`) and decode errors (carrying the message of
the error returned by `Item.Load`). -/
inductive Err where
  | notExist
  | decode (msg : String)
  deriving DecidableEq

/-- `Storage.Store`: upserts a non-terminal marker record for every proper
ancestor path (all but the last component of the key), then upserts the
terminal record with the contents, size and terminal flag.  `now` models
the `time.Now()` calls made during the operation (RFC 3339 has second
precision, so one value stands for all of them). -/
def Storage.Store (tbl : Table) (now : Nat) (key : String) (value : List Nat) : Table :=
  let keyParts := strSplitGo key (Char.ofNat 47)
  let tbl1 := (List.range (keyParts.length - 1)).foldl
    (fun t i =>
      putItemUncond t (Item.encode ⟨strJoinGo (keyParts.take (i + 1)) (Char.ofNat 47), [], now, 0, false⟩))
    tbl
  putItemUncond tbl1 (Item.encode ⟨key, value, now, (value.length : Int), true⟩)

/-- `Storage.Load`: consistent point read; `fs.ErrNotExist` when the item
is absent, decode error when `Item.Load` fails, otherwise the contents. -/
def Storage.Load (tbl : Table) (key : String) : Except Err (List Nat) :=
  match getItem tbl key with
  | none => Except.error Err.notExist
  | some m =>
    match Item.Load m with
    | Except.error e => Except.error (Err.decode e)
    | Except.ok item => Except.ok item.Contents

/-- `Storage.Exists`: true iff the point read returns an item; errors are
swallowed (the reliable-backend model has none). -/
def Storage.Exists (tbl : Table) (key : String) : Bool :=
  (getItem tbl key).isSome

/-- Information returned by `Storage.Stat` (certmagic's `KeyInfo`). -/
structure KeyInfo where
  Key : String
  Modified : Nat
  IsTerminal : Bool
  Size : Int
  deriving DecidableEq

/-- `Storage.Stat`: consistent point read; `fs.ErrNotExist` when absent,
decode error when `Item.Load` fails, otherwise key/modified/terminal/size. -/
def Storage.Stat (tbl : Table) (key : String) : Except Err KeyInfo :=
  match getItem tbl key with
  | none => Except.error Err.notExist
  | some m =>
    match Item.Load m with
    | Except.error e => Except.error (Err.decode e)
    | Except.ok item => Except.ok ⟨item.Key, item.Modified, item.IsTerminal, item.Size⟩

/-- The per-item loop of `Storage.List`: decode each scanned item (aborting
the whole operation on the first decode error); when not recursive, skip
items whose key still contains a slash after trimming `path ++ "/"`. -/
def Storage.listKeys (path : String) (recursive : Bool) : List AttrMap → Except Err (List String)
  | [] => Except.ok []
  | m :: rest =>
    match Item.Load m with
    | Except.error e => Except.error (Err.decode e)
    | Except.ok item =>
      match Storage.listKeys path recursive rest with
      | Except.error e => Except.error e
      | Except.ok keys =>
        if !recursive then
          let name := trimPrefixGo item.Key (path ++ "/")
          if strContainsGo name (Char.ofNat 47) then Except.ok keys
          else Except.ok (item.Key :: keys)
        else Except.ok (item.Key :: keys)

/-- `Storage.List` from the source (named `ListOp` here because a
declaration called `Storage.List` would shadow the `List` type inside
every later `Storage` definition): scan for keys beginning with
`path ++ "/"`; `fs.ErrNotExist` when the scan is empty, otherwise the
decoded keys (filtered to direct children when not recursive). -/
def Storage.ListOp (tbl : Table) (path : String) (recursive : Bool) : Except Err (List String) :=
  let items := scanBeginsWith tbl (path ++ "/")
  if items.isEmpty then Except.error Err.notExist
  else Storage.listKeys path recursive items

/-- The recursive sweep of `Storage.Delete`: delete each scanned item by
its "Key" attribute (per-key deletes never fail in the reliable-backend
model). -/
def Storage.deleteSweep (tbl : Table) (items : List AttrMap) : Table :=
  items.foldl
    (fun t m =>
      match itemKey m with
      | some s => (deleteItem t s).2
      | none => t)
    tbl

/-- `Storage.Delete`: delete `key` returning the old item.  Absent item:
success (no-op).  Old item fails to decode: decode error.  Old item
terminal: done.  Otherwise scan for `key ++ "/"`: empty scan is
`fs.ErrNotExist`, else delete every matched key. -/
def Storage.Delete (tbl : Table) (key : String) : Except Err Unit × Table :=
  let old := (deleteItem tbl key).1
  let tbl1 := (deleteItem tbl key).2
  match old with
  | none => (Except.ok (), tbl1)
  | some attrs =>
    match Item.Load attrs with
    | Except.error e => (Except.error (Err.decode e), tbl1)
    | Except.ok item =>
      if item.IsTerminal then (Except.ok (), tbl1)
      else
        let found := scanBeginsWith tbl1 (key ++ "/")
        if found.isEmpty then (Except.error Err.notExist, tbl1)
        else (Except.ok (), Storage.deleteSweep tbl1 found)

/-- Outcome of the conditional-put-failure handling inside `Storage.Lock`
(lines handling `ConditionalCheckFailedException`): permanent error from a
timestamp that fails to parse, permanent error from an absent or mistyped
"Locked" attribute, force-delete of a stale lock followed by an immediate
retry (no sleep), or a one-second sleep followed by a retry. -/
inductive LockOutcome where
  | errParse
  | errInvalidAttr
  | forceDeleteRetry
  | sleepRetry
  deriving DecidableEq

/-- Errors surfaced by the lock methods: the `time.Parse` failure, the
"invalid Locked attribute" error, the calling context's cancellation error
(surfaced by a backend call), and exhaustion of the model's fuel (which
stands for an unboundedly long run, not for any error of the code). -/
inductive LockErr where
  | parseErr
  | invalidLockedAttr
  | ctxCancelled
  | outOfFuel
  deriving DecidableEq

/-- Observable events of one `Storage.Lock` run: a conditional-put call, a
precondition failure, the one-second backoff sleep, the force-delete of a
stale lock record, and returning to the caller. -/
inductive LockEvent where
  | putAttempt
  | condFailed
  | slept
  | deletedStale
  | returned
  deriving DecidableEq

/-- The derived lock key: `fmt.Sprintf("LOCK-%s", name)`. -/
def lockKey (name : String) : String := "LOCK-" ++ name

/-- Handling of a conditional-put precondition failure in `Storage.Lock`,
given the current holder's record `condItem` and the current time `t`:
read the "Locked" attribute (error if absent or not a string), parse it
(error if unparsable), force-delete and retry when the age exceeds one
minute, otherwise sleep and retry.  The context's cancellation status at
this point is in scope in the source but never consulted, hence the
ignored first parameter. -/
def Storage.lockOnCondFail (_ctxCancelled : Bool) (condItem : AttrMap) (t : Nat) : LockOutcome :=
  match condItem.lookup "Locked" with
  | some (AttrVal.S str) =>
    match timeParseRFC3339 str with
    | none => LockOutcome.errParse
    | some locked =>
      if (t : Int) - (locked : Int) > 60 then LockOutcome.forceDeleteRetry
      else LockOutcome.sleepRetry
  | _ => LockOutcome.errInvalidAttr

/-- `Storage.deleteLock`: unconditional DeleteItem of the derived lock key
(no condition, no ReturnValues); in the reliable-backend model it always
succeeds, even when the key is absent. -/
def Storage.deleteLock (tbl : Table) (name : String) : Table :=
  (deleteItem tbl (lockKey name)).2

/-- `Storage.Lock`: the retry loop.  `ctx` gives the cancellation status
of the calling context as a function of the step counter `s` (each backend
call or sleep advances the counter); every backend call made with a
cancelled context returns the context's error, which the loop returns — 
there is no other cancellation check in the source.  `t` is the model
time in seconds; the sleep advances it by one.  The conditional put with
`attribute_not_exists(#key)` succeeds iff no item exists at the lock key,
and on failure yields the current holder's record, handled by
`Storage.lockOnCondFail` (passed the cancellation status at the moment of
handling, which it ignores).  On success the caller holds the lock and the
new table is returned.  Fuel bounds the number of iterations modelled. -/
def Storage.Lock (name : String) (ctx : Nat → Bool) :
    Nat → Table → Nat → Nat → Except LockErr Table × List LockEvent
  | 0, _, _, _ => (Except.error LockErr.outOfFuel, [])
  | fuel + 1, tbl, s, t =>
    if ctx s then
      (Except.error LockErr.ctxCancelled, [LockEvent.putAttempt, LockEvent.returned])
    else
      match getItem tbl (lockKey name) with
      | none =>
        (Except.ok (putItemUncond tbl
            [("Key", AttrVal.S (lockKey name)),
             ("Locked", AttrVal.S (timeFormatRFC3339 t))]),
         [LockEvent.putAttempt, LockEvent.returned])
      | some existing =>
        match Storage.lockOnCondFail (ctx (s + 1)) existing t with
        | LockOutcome.errParse =>
          (Except.error LockErr.parseErr,
           [LockEvent.putAttempt, LockEvent.condFailed, LockEvent.returned])
        | LockOutcome.errInvalidAttr =>
          (Except.error LockErr.invalidLockedAttr,
           [LockEvent.putAttempt, LockEvent.condFailed, LockEvent.returned])
        | LockOutcome.forceDeleteRetry =>
          if ctx (s + 1) then
            (Except.error LockErr.ctxCancelled,
             [LockEvent.putAttempt, LockEvent.condFailed, LockEvent.returned])
          else
            let rest := Storage.Lock name ctx fuel (Storage.deleteLock tbl name) (s + 2) t
            (rest.1, [LockEvent.putAttempt, LockEvent.condFailed, LockEvent.deletedStale] ++ rest.2)
        | LockOutcome.sleepRetry =>
          let rest := Storage.Lock name ctx fuel tbl (s + 2) (t + 1)
          (rest.1, [LockEvent.putAttempt, LockEvent.condFailed, LockEvent.slept] ++ rest.2)

/-- `Storage.Unlock`: delegates to `Storage.deleteLock`; in the
reliable-backend model the unconditional delete always succeeds. -/
def Storage.Unlock (tbl : Table) (name : String) : Except LockErr Unit × Table :=
  (Except.ok (), Storage.deleteLock tbl name)

-- Except values are compared structurally in the concrete evaluations below.
deriving instance DecidableEq for Except

/-!
Theorems about the embedded operations, one per claim about the program,
preceded by helper lemmas shared between them.
-/

/-- An item returned by a point get carries a string "Key" attribute equal
to the requested key (the backend's keying invariant, read off from
`getItem`'s filter). -/
theorem getItem_some_key {tbl : Table} {key : String} {m : AttrMap}
    (h : getItem tbl key = some m) : m.lookup "Key" = some (AttrVal.S key) := by
  unfold getItem at h
  have hp := List.find?_some h
  have hk : itemKey m = some key := eq_of_beq hp
  unfold itemKey at hk
  cases h' : m.lookup "Key" with
  | none => rw [h'] at hk; simp at hk
  | some v =>
    cases v with
    | S s => rw [h'] at hk; simp at hk; rw [hk]
    | B b => rw [h'] at hk; simp at hk
    | N n => rw [h'] at hk; simp at hk
    | BOOL b => rw [h'] at hk; simp at hk

/-- Decoding an item that has its "Key" attribute but lacks the "Contents"
attribute fails with the "invalid attribute value" error. -/
theorem itemLoad_no_contents {m : AttrMap} {key : String}
    (hk : m.lookup "Key" = some (AttrVal.S key))
    (hc : m.lookup "Contents" = none) :
    Item.Load m = Except.error "invalid attribute value" := by
  unfold Item.Load
  rw [hk, hc]

/-- C1.  The claim states that for every key and every byte payload,
including the empty payload, a successful Store followed by Load returns
exactly the payload.  The code breaks this at the empty payload: `Store`
encodes a zero-length value with no "Contents" and no "Size" attribute
(the encoder omits zero-valued fields), and `Load`'s decoder requires both
to be present, so `Load` after `Store(k, [])` returns the decode error
"invalid attribute value" instead of the empty payload — contradicting the
round-trip stated both by the spec and by the interface documentation in
the source ("Load() should always return the value from the last call to
Store() for a given key").  A non-empty payload round-trips. -/
theorem store_load_empty_payload_bug :
    Storage.Load (Storage.Store [] 1 "k" []) "k" =
      Except.error (Err.decode "invalid attribute value") ∧
    Storage.Load (Storage.Store [] 1 "k" [9]) "k" = Except.ok [9] := by
  decide

/-- C2.  The claim states the record codec is lossless, in particular on
marker records (empty contents, zero size, terminal flag false).  It is
not: the encoder emits only "Key" and "Modified" for a marker record, and
the decoder requires all five attributes, so decoding the encoding of a
marker fails with "invalid attribute value" instead of returning the
record. -/
theorem codec_marker_record_bug :
    Item.encode ⟨"a", [], 1, 0, false⟩ =
      [("Key", AttrVal.S "a"), ("Modified", AttrVal.S "1")] ∧
    Item.Load (Item.encode ⟨"a", [], 1, 0, false⟩) =
      Except.error "invalid attribute value" := by
  decide

/-- C3.  The claim states that after Store("a/b/c", v), Stat("a") and
Stat("a/b") succeed reporting isTerminal = false.  They do not: the marker
records written for "a" and "a/b" carry only "Key" and "Modified", and
`Stat` decodes the item with the strict decoder, so both calls return the
decode error "invalid attribute value".  Stat("a/b/c") behaves as claimed
(isTerminal = true, size = len(v)). -/
theorem stat_directory_markers_bug :
    Storage.Stat (Storage.Store [] 1 "a/b/c" [7]) "a" =
      Except.error (Err.decode "invalid attribute value") ∧
    Storage.Stat (Storage.Store [] 1 "a/b/c" [7]) "a/b" =
      Except.error (Err.decode "invalid attribute value") ∧
    Storage.Stat (Storage.Store [] 1 "a/b/c" [7]) "a/b/c" =
      Except.ok ⟨"a/b/c", 1, true, 1⟩ := by
  decide

/-- C4.  The claim states that with a/b/x and a/b/y stored, Delete("a")
succeeds and removes everything under "a", and List("a", recursive=true)
then fails not-found.  Instead: Delete("a") removes the "a" marker from
the table but then fails decoding the marker's returned old attributes
(only "Key" and "Modified" are present), returning the decode error before
any recursive sweep; the subsequent recursive List("a") finds the orphaned
records and fails decoding the "a/b" marker — a decode error, not the
not-found condition. -/
theorem recursive_delete_bug :
    (Storage.Delete (Storage.Store (Storage.Store [] 1 "a/b/x" [1]) 1 "a/b/y" [2]) "a").1 =
      Except.error (Err.decode "invalid attribute value") ∧
    Storage.ListOp
        (Storage.Delete (Storage.Store (Storage.Store [] 1 "a/b/x" [1]) 1 "a/b/y" [2]) "a").2
        "a" true =
      Except.error (Err.decode "invalid attribute value") := by
  decide

/-- C5.  The claim states that with foo/cert/key and foo/cert/chain
stored, List("foo", recursive=false) succeeds and returns exactly
["foo/cert"].  It does not: the scan for the "foo/" prefix also matches
the marker record "foo/cert" written by Store, List decodes every matched
item with the strict decoder, and decoding the marker fails, so the whole
call returns the decode error "invalid attribute value" instead of a key
list. -/
theorem list_nonrecursive_bug :
    Storage.ListOp (Storage.Store (Storage.Store [] 1 "foo/cert/key" [1]) 1 "foo/cert/chain" [2])
        "foo" false =
      Except.error (Err.decode "invalid attribute value") := by
  decide

/-- C6 counterexample.  The claim states that Delete on a never-written
key fails with the not-found condition; on the empty table Delete("k")
returns success instead (the delete-with-old-value reports no previous
item, which the code treats as a successful no-op). -/
theorem delete_never_written_succeeds_cx :
    (Storage.Delete ([] : Table) "k").1 = Except.ok () ∧
    (Storage.Delete ([] : Table) "k").1 ≠ Except.error Err.notExist := by
  decide

/-- C6 amended.  On a never-written key (no record at the key and no
record under it), Load, List and Stat fail with the distinguishable
not-found condition, while Delete succeeds as a no-op. -/
theorem notfound_propagation_amended (tbl : Table) (key : String) (recursive : Bool)
    (habs : getItem tbl key = none)
    (hscan : scanBeginsWith tbl (key ++ "/") = []) :
    Storage.Load tbl key = Except.error Err.notExist ∧
    Storage.Stat tbl key = Except.error Err.notExist ∧
    Storage.ListOp tbl key recursive = Except.error Err.notExist ∧
    (Storage.Delete tbl key).1 = Except.ok () := by
  refine ⟨?_, ?_, ?_, ?_⟩
  · simp [Storage.Load, habs]
  · simp [Storage.Stat, habs]
  · simp [Storage.ListOp, hscan]
  · simp [Storage.Delete, deleteItem, habs]

/-- Witness for the amended C6 statement at the empty table. -/
theorem notfound_propagation_amended_witness :
    Storage.Load ([] : Table) "k" = Except.error Err.notExist ∧
    Storage.Stat ([] : Table) "k" = Except.error Err.notExist ∧
    Storage.ListOp ([] : Table) "k" true = Except.error Err.notExist ∧
    (Storage.Delete ([] : Table) "k").1 = Except.ok () :=
  notfound_propagation_amended [] "k" true (by decide) (by decide)

/-- C9.  A key holding a sparsely-encoded record — one lacking the
"Contents", "Size" and "IsTerminal" attributes, as the directory markers
created by Store are — is reported as existing by Exists (which never
decodes), while Load and Stat on the same key return the decode error
"invalid attribute value" rather than the not-found condition. -/
theorem exists_true_load_stat_decode (tbl : Table) (key : String) (m : AttrMap)
    (hget : getItem tbl key = some m)
    (hc : m.lookup "Contents" = none)
    (hsz : m.lookup "Size" = none)
    (hterm : m.lookup "IsTerminal" = none) :
    Storage.Exists tbl key = true ∧
    Storage.Load tbl key = Except.error (Err.decode "invalid attribute value") ∧
    Storage.Stat tbl key = Except.error (Err.decode "invalid attribute value") := by
  have hload := itemLoad_no_contents (getItem_some_key hget) hc
  refine ⟨?_, ?_, ?_⟩
  · simp [Storage.Exists, hget]
  · simp [Storage.Load, hget, hload]
  · simp [Storage.Stat, hget, hload]

/-- Witness for C9 at the marker record "a" created by Store("a/b", v). -/
theorem exists_true_load_stat_decode_witness :
    Storage.Exists (Storage.Store [] 1 "a/b" [5]) "a" = true ∧
    Storage.Load (Storage.Store [] 1 "a/b" [5]) "a" =
      Except.error (Err.decode "invalid attribute value") ∧
    Storage.Stat (Storage.Store [] 1 "a/b" [5]) "a" =
      Except.error (Err.decode "invalid attribute value") :=
  exists_true_load_stat_decode (Storage.Store [] 1 "a/b" [5]) "a"
    [("Key", AttrVal.S "a"), ("Modified", AttrVal.S "1")]
    (by decide) (by decide) (by decide) (by decide)

/-- C10.  Unlock of a name with no lock record at the derived key
succeeds and leaves the table unchanged: the unconditional delete of an
absent key is a no-op, so Unlock never reports not-found (in the
reliable-backend model it only fails on a backend error, of which there
are none). -/
theorem unlock_absent_is_noop (tbl : Table) (name : String)
    (h : getItem tbl (lockKey name) = none) :
    Storage.Unlock tbl name = (Except.ok (), tbl) := by
  unfold Storage.Unlock Storage.deleteLock deleteItem
  have hfix : tbl.filter (fun m => !(itemKey m == some (lockKey name))) = tbl := by
    apply List.filter_eq_self.mpr
    intro m hm
    have hne := List.find?_eq_none.mp h m hm
    simp only [Bool.not_eq_true'] at hne ⊢
    simpa using hne
  rw [hfix]

/-- Witness for C10 at the empty table. -/
theorem unlock_absent_is_noop_witness :
    Storage.Unlock ([] : Table) "x" = (Except.ok (), ([] : Table)) :=
  unlock_absent_is_noop [] "x" (by decide)

/-- C7.  When the conditional put fails because a lock record already
exists (here: `getItem` finds `item` at the lock key, with the context not
cancelled), the loop behaves as claimed: an unparsable "Locked" timestamp
makes Lock return the parse error without retrying (one put attempt in the
whole trace); an absent or mistyped "Locked" attribute makes Lock return
the "invalid Locked attribute" error without retrying; a parsed age over
the one-minute threshold makes Lock force-delete the stale record and
retry immediately — the continuation runs at the same model time, with no
sleep event before the retry; otherwise Lock sleeps the one-second backoff
(the continuation runs one second later) and retries. -/
theorem lock_cond_fail_paths
    (name : String) (ctx : Nat → Bool) (fuel : Nat) (tbl : Table) (s t : Nat) (item : AttrMap)
    (hs : ctx s = false) (hs1 : ctx (s + 1) = false)
    (hget : getItem tbl (lockKey name) = some item) :
    (∀ str, item.lookup "Locked" = some (AttrVal.S str) → timeParseRFC3339 str = none →
      Storage.Lock name ctx (fuel + 1) tbl s t =
        (Except.error LockErr.parseErr,
         [LockEvent.putAttempt, LockEvent.condFailed, LockEvent.returned])) ∧
    ((∀ str, ¬ item.lookup "Locked" = some (AttrVal.S str)) →
      Storage.Lock name ctx (fuel + 1) tbl s t =
        (Except.error LockErr.invalidLockedAttr,
         [LockEvent.putAttempt, LockEvent.condFailed, LockEvent.returned])) ∧
    (∀ str locked, item.lookup "Locked" = some (AttrVal.S str) →
      timeParseRFC3339 str = some locked → (t : Int) - (locked : Int) > 60 →
      Storage.Lock name ctx (fuel + 1) tbl s t =
        ((Storage.Lock name ctx fuel (Storage.deleteLock tbl name) (s + 2) t).1,
         [LockEvent.putAttempt, LockEvent.condFailed, LockEvent.deletedStale]
           ++ (Storage.Lock name ctx fuel (Storage.deleteLock tbl name) (s + 2) t).2)) ∧
    (∀ str locked, item.lookup "Locked" = some (AttrVal.S str) →
      timeParseRFC3339 str = some locked → ¬((t : Int) - (locked : Int) > 60) →
      Storage.Lock name ctx (fuel + 1) tbl s t =
        ((Storage.Lock name ctx fuel tbl (s + 2) (t + 1)).1,
         [LockEvent.putAttempt, LockEvent.condFailed, LockEvent.slept]
           ++ (Storage.Lock name ctx fuel tbl (s + 2) (t + 1)).2)) := by
  refine ⟨?_, ?_, ?_, ?_⟩
  · intro str hstr hparse
    simp [Storage.Lock, hs, hget, Storage.lockOnCondFail, hstr, hparse]
  · intro hnostr
    have hout : Storage.lockOnCondFail (ctx (s + 1)) item t = LockOutcome.errInvalidAttr := by
      unfold Storage.lockOnCondFail
      cases h' : item.lookup "Locked" with
      | none => rfl
      | some v =>
        cases v with
        | S str => exact absurd h' (hnostr str)
        | B b => rfl
        | N n => rfl
        | BOOL b => rfl
    simp [Storage.Lock, hs, hget, hout]
  · intro str locked hstr hparse hstale
    have hout : ∀ c, Storage.lockOnCondFail c item t = LockOutcome.forceDeleteRetry := by
      intro c
      simp [Storage.lockOnCondFail, hstr, hparse, hstale]
    simp [Storage.Lock, hs, hs1, hget, hout]
  · intro str locked hstr hparse hlive
    have hout : ∀ c, Storage.lockOnCondFail c item t = LockOutcome.sleepRetry := by
      intro c
      simp [Storage.lockOnCondFail, hstr, hparse, hlive]
    simp [Storage.Lock, hs, hget, hout]

/-- Witness for C7, exercising the backoff path: one contention iteration
against a freshly-locked holder sleeps and hands the retry to the
continuation (which here runs out of fuel). -/
theorem lock_cond_fail_paths_witness :
    Storage.Lock "x" (fun _ => false) 1
        [[("Key", AttrVal.S "LOCK-x"), ("Locked", AttrVal.S "0")]] 0 0 =
      (Except.error LockErr.outOfFuel,
       [LockEvent.putAttempt, LockEvent.condFailed, LockEvent.slept]) := by
  have h := (lock_cond_fail_paths "x" (fun _ => false) 0
      [[("Key", AttrVal.S "LOCK-x"), ("Locked", AttrVal.S "0")]] 0 0
      [("Key", AttrVal.S "LOCK-x"), ("Locked", AttrVal.S "0")]
      rfl rfl (by decide)).2.2.2 "0" 0 (by decide) (by decide) (by decide)
  rw [h]
  decide

/-- C8 counterexample.  The claim states that Lock checks the calling
context before sleeping and before retrying the put, returning a
cancellation error promptly once cancelled.  Here the context is cancelled
from step 1 onward — that is, from the moment the first conditional put
has returned its precondition failure, before any sleep — yet the run
still sleeps the full backoff and issues another conditional put, and only
that second backend call surfaces the cancellation error. -/
theorem lock_sleep_ignores_cancellation_cx :
    Storage.Lock "x" (fun s => decide (1 ≤ s)) 2
        [[("Key", AttrVal.S "LOCK-x"), ("Locked", AttrVal.S "0")]] 0 0 =
      (Except.error LockErr.ctxCancelled,
       [LockEvent.putAttempt, LockEvent.condFailed, LockEvent.slept,
        LockEvent.putAttempt, LockEvent.returned]) := by
  decide

/-- C8 amended.  The loop contains no cancellation check of its own: the
handling of a conditional-put failure — the choice between permanent
error, stale force-delete and backoff sleep — is entirely independent of
the context's cancellation status, so a cancellation arriving after a put
has returned does not interrupt the backoff sleep; cancellation is
observed only through the next backend call, whose cancellation error Lock
returns. -/
theorem lock_cancellation_amended :
    (∀ (c : Bool) (item : AttrMap) (t : Nat),
        Storage.lockOnCondFail c item t = Storage.lockOnCondFail false item t) ∧
    (∀ (name : String) (ctx : Nat → Bool) (fuel : Nat) (tbl : Table) (s t : Nat),
        ctx s = true →
        Storage.Lock name ctx (fuel + 1) tbl s t =
          (Except.error LockErr.ctxCancelled, [LockEvent.putAttempt, LockEvent.returned])) := by
  constructor
  · intro c item t
    rfl
  · intro name ctx fuel tbl s t h
    simp [Storage.Lock, h]

/-- Witness for the amended C8 statement: a run whose context is cancelled
from the start returns the cancellation error from its first backend
call. -/
theorem lock_cancellation_amended_witness :
    Storage.Lock "x" (fun _ => true) 1 [] 0 0 =
      (Except.error LockErr.ctxCancelled, [LockEvent.putAttempt, LockEvent.returned]) :=
  lock_cancellation_amended.2 "x" (fun _ => true) 0 [] 0 0 rfl
